import Mathlib

/-!
Shallow embedding of the BitBot repository (src/streamlit_app.py, the
Streamlit variant, embedded in namespace `BitBot.Streamlit`, and src/app.py,
the CLI variant, embedded in namespace `BitBot.App`).

Python strings are modelled as `List Char`; Python `in` on strings is
`List.IsInfix` on the lowered character lists, `str.lower()` is
`List.map Char.toLower` (the repository only matches ASCII keywords and coin
names, where Lean's `Char.toLower` agrees with Python's `str.lower`).

Every numeric constant the program stores and formats (43500.0, 1.2, -0.5,
0.62, ...) is an exact multiple of 0.01, so the price store keeps the values
as exact integer cents (price) and hundredths of a percent (24h change);
Python's float formatting `{:,.2f}` / `{:+.2f}` is embedded as rendering
those integers, which agrees with CPython's output on all stored values.
`PriceData.price` / `PriceData.change` recover the exact rational values for
the arithmetic done by the synthetic history generator.

External effects are made explicit parameters: the pseudo-random source
behind `random.normalvariate(0, volatility)` is a function `Nat → ℚ` giving
the successive standardised draws (the i-th sampled daily return is
`volatility * rand i`), the LLM invocation and the CoinGecko HTTP fetch are
`Except`-valued oracles fed to the functions that `try`/`except` around
them (`Except.error` is a raised Python exception).
-/

namespace BitBot

/-- Python strings as lists of characters. -/
abbrev PyStr := List Char

/-- Python `str.lower()` (ASCII-faithful). -/
def lower (s : PyStr) : PyStr := s.map Char.toLower

/-- Helper for `pyTitle`: the flag records whether the previous character was
alphabetic (Python title-cases the first letter of each alphabetic run). -/
def pyTitleGo : Bool → PyStr → PyStr
  | _, [] => []
  | prevAlpha, c :: rest =>
    (if c.isAlpha then (if prevAlpha then c.toLower else c.toUpper) else c)
      :: pyTitleGo c.isAlpha rest

/-- Python `str.title()`. -/
def pyTitle (s : PyStr) : PyStr := pyTitleGo false s

/-- Python `str.strip()` (whitespace at both ends removed). -/
def pyStrip (s : PyStr) : PyStr :=
  ((s.dropWhile Char.isWhitespace).reverse.dropWhile Char.isWhitespace).reverse

/-- Digit groups of three, starting from the least significant digit (the
input is the reversed digit string). -/
def chunk3 : PyStr → List PyStr
  | [] => []
  | [a] => [[a]]
  | [a, b] => [[a, b]]
  | a :: b :: c :: rest => [a, b, c] :: chunk3 rest

/-- Thousands separators: `43500` (as digits) becomes `43,500`. -/
def commaDigits (ds : PyStr) : PyStr :=
  ((chunk3 ds.reverse).intersperse [',']).flatten.reverse

/-- A number below 100 rendered with exactly two digits. -/
def pad2 (n : Nat) : PyStr :=
  if n < 10 then '0' :: Nat.toDigits 10 n else Nat.toDigits 10 n

/-- Python `f"{v:,.2f}"` on the value `c / 100`: thousands separators and two
decimals. -/
def formatComma2 (c : Int) : PyStr :=
  (if c < 0 then ['-'] else [])
    ++ commaDigits (Nat.toDigits 10 (c.natAbs / 100))
    ++ '.' :: pad2 (c.natAbs % 100)

/-- Python `f"{v:+.2f}"` on the value `c / 100`: explicit sign and two
decimals (no separators). -/
def formatPlus2 (c : Int) : PyStr :=
  (if c < 0 then ['-'] else ['+'])
    ++ Nat.toDigits 10 (c.natAbs / 100)
    ++ '.' :: pad2 (c.natAbs % 100)

/-- Python `dict.get` over an association list (dict keys are unique and kept
in insertion order, as in CPython). -/
def dictGet (l : List (PyStr × α)) (key : PyStr) : Option α :=
  (l.find? (fun e => e.1 = key)).map Prod.snd

/-- Python `", ".join(names)`. -/
def joinComma (l : List PyStr) : PyStr := (l.intersperse ", ".toList).flatten

/-- A raised Python exception, carrying its rendered message. -/
structure PyExc where
  msg : PyStr
deriving DecidableEq

/-- The fixed user-facing fallback string both LLM gateways return when the
provider call raises (identical literal in src/app.py and
src/streamlit_app.py). -/
def fallbackText : PyStr :=
  "I'm having trouble thinking right now. Try again shortly.".toList

namespace Streamlit

/-! ## src/streamlit_app.py -/

/-- One entry of `price_data` in src/streamlit_app.py.  `priceCents` is the
stored price in cents, `changeCenti` the 24h change in hundredths of a
percent (both stored values are exact centesimals in the source). -/
structure PriceData where
  priceCents : Int
  changeCenti : Int
  symbol : PyStr
  color : PyStr
deriving DecidableEq

/-- The stored price as an exact rational (dollars). -/
def PriceData.price (d : PriceData) : ℚ := (d.priceCents : ℚ) / 100

/-- The stored 24h change as an exact rational (percent). -/
def PriceData.change (d : PriceData) : ℚ := (d.changeCenti : ℚ) / 100

/-- The `"bitcoin"` entry of `price_data`: price 43500.0, change +1.2. -/
def bitcoinEntry : PriceData := ⟨4350000, 120, "₿".toList, "#f7931a".toList⟩

/-- The `"ethereum"` entry of `price_data`: price 3250.0, change -0.5. -/
def ethereumEntry : PriceData := ⟨325000, -50, "Ξ".toList, "#627eea".toList⟩

/-- The `"cardano"` entry of `price_data`: price 0.62, change +0.8. -/
def cardanoEntry : PriceData := ⟨62, 80, "₳".toList, "#0033ad".toList⟩

/-- `price_data` from src/streamlit_app.py (insertion order preserved). -/
def price_data : List (PyStr × PriceData) :=
  [ ("bitcoin".toList, bitcoinEntry),
    ("ethereum".toList, ethereumEntry),
    ("cardano".toList, cardanoEntry) ]

/-- The per-coin volatility constant of `generate_price_history`:
`0.02 if coin == "bitcoin" else 0.03 if coin == "ethereum" else 0.04`. -/
def volatility (coin : PyStr) : ℚ :=
  if coin = "bitcoin".toList then 2/100
  else if coin = "ethereum".toList then 3/100
  else 4/100

/-- The start value of the random walk in `generate_price_history`:
`current_price * (1 - price_data[coin]["change"]/100 * 30)`. -/
def startPrice (d : PriceData) : ℚ := d.price * (1 - d.change / 100 * 30)

/-- The back-projected start value in the words of the spec —
`current_price / (1 + change_24h/100 * 30)` — stated only to be compared
with `startPrice`, the value the source actually computes. -/
def specStartPrice (d : PriceData) : ℚ := d.price / (1 + d.change / 100 * 30)

/-- `pd.date_range(end=today, periods=n)` at daily frequency: the `n`
consecutive days ending at `today` (days counted as integers). -/
def dateRange (today : ℤ) (periods : Nat) : List ℤ :=
  (List.range periods).map (fun i : Nat => today - ((periods : ℤ) - 1) + (i : ℤ))

/-- The loop body of `generate_price_history`: starting from `p`, apply `n`
multiplicative daily returns `volatility * rand i` and collect the updated
price after each step (the i-th draw of `random.normalvariate(0, vol)` is
modelled as `vol * rand i`). -/
def walk (rand : Nat → ℚ) (vol : ℚ) : ℚ → Nat → Nat → List ℚ
  | _, _, 0 => []
  | p, i, n + 1 =>
    (p * (1 + vol * rand i)) :: walk rand vol (p * (1 + vol * rand i)) (i + 1) n

/-- Python `prices[-1] = v`: the last element overwritten (empty list would
raise; never reached, the walk produces 30 points). -/
def setLast : List ℚ → ℚ → List ℚ
  | [], _ => []
  | [_], v => [v]
  | a :: b :: rest, v => a :: setLast (b :: rest) v

/-- `generate_price_history` from src/streamlit_app.py.  `today` stands for
`pd.Timestamp.now()` as a day number, `rand` for the pseudo-random source.
An unknown coin is `none` (Python raises `KeyError` on `price_data[coin]`);
the DataFrame of the two 30-element columns is the list of (date, price)
pairs. -/
def generate_price_history (coin : PyStr) (today : ℤ) (rand : Nat → ℚ) :
    Option (List (ℤ × ℚ)) :=
  match dictGet price_data coin with
  | none => none
  | some data =>
    let dates := dateRange today 30
    let prices := walk rand (volatility coin) (startPrice data) 0 30
    some (dates.zip (setLast prices data.price))

/-- `format_price` from src/streamlit_app.py.  `data['change'] > 0` picks the
green marker, otherwise red; the price is `{:,.2f}`, the change `{:+.2f}`. -/
def format_price (coin : PyStr) (include_chart : Bool) : PyStr :=
  match dictGet price_data coin with
  | none =>
      ("Sorry, I don't have data for that cryptocurrency. " ++
        "Try asking about Bitcoin, Ethereum, or Cardano.").toList
  | some data =>
    let change_str := formatPlus2 data.changeCenti ++ "%".toList
    let change_formatted :=
      (if data.changeCenti > 0 then "🟢 ".toList else "🔴 ".toList) ++ change_str
    let result :=
      "The current price of ".toList ++ pyTitle coin ++ [' '] ++ data.symbol
        ++ " is $".toList ++ formatComma2 data.priceCents
        ++ " (".toList ++ change_formatted ++ " in 24h).".toList
    if include_chart then
      result ++ "\n\n*Generating price chart for ".toList ++ pyTitle coin
        ++ "...*".toList
    else result

/-- `handle_price_query` from src/streamlit_app.py: the first stored coin
whose name occurs in the lowered query is formatted; otherwise the fixed
no-data message. -/
def handle_price_query (query : PyStr) : PyStr :=
  match price_data.find? (fun e => decide (e.1 <:+: lower query)) with
  | some e => format_price e.1 false
  | none =>
      ("Sorry, I don't have data for that cryptocurrency. " ++
        "Try asking about Bitcoin, Ethereum, or Cardano.").toList

/-- `build_prompt` from src/streamlit_app.py with the default
`BOT_NAME = "BitBot"`: the triple-quoted system message (current prices
interpolated from `price_data`) followed by the user turn. -/
def build_prompt (user_input : PyStr) : PyStr :=
  ("You are BitBot, an expert cryptocurrency assistant with deep knowledge " ++
      "of blockchain technology.\n    \n" ++
    "    When explaining cryptocurrencies:\n" ++
    "    - Provide detailed, informative explanations about blockchain concepts\n" ++
    "    - Include information about the technology, history, and use cases\n" ++
    "    - For Bitcoin questions, explain it's the first cryptocurrency, " ++
      "created by Satoshi Nakamoto in 2009\n" ++
    "    - For Ethereum questions, explain it's a decentralized platform " ++
      "for smart contracts and applications\n" ++
    "    - For Cardano questions, explain it's a proof-of-stake blockchain " ++
      "platform focused on sustainability\n" ++
    "    - Format your response with bullet points for key features\n" ++
    "    - Always be factual, educational and helpful\n    \n" ++
    "    Current crypto prices:\n    - Bitcoin: $").toList
    ++ formatComma2 bitcoinEntry.priceCents ++ " (".toList
    ++ formatPlus2 bitcoinEntry.changeCenti ++ "%)\n    - Ethereum: $".toList
    ++ formatComma2 ethereumEntry.priceCents ++ " (".toList
    ++ formatPlus2 ethereumEntry.changeCenti ++ "%)\n    - Cardano: $".toList
    ++ formatComma2 cardanoEntry.priceCents ++ " (".toList
    ++ formatPlus2 cardanoEntry.changeCenti ++ "%)\n    ".toList
    ++ "\n\nUser: ".toList ++ user_input ++ "\nAssistant:".toList

/-- The value of `llm.invoke(prompt)` when it returns: either a LangChain
`AIMessage` (whose `.content` is taken) or anything else (whose `str()` is
taken). -/
inductive InvokeResult where
  | aiMessage (content : PyStr)
  | other (text : PyStr)
deriving DecidableEq

/-- `get_llm_response` from src/streamlit_app.py.  `invoke` is the external
LLM: `Except.error` is any exception raised inside the `try` block, which the
function catches and maps to the fixed fallback string. -/
def get_llm_response (invoke : PyStr → Except PyExc InvokeResult)
    (prompt : PyStr) : PyStr :=
  match invoke prompt with
  | .ok (.aiMessage c) => pyStrip c
  | .ok (.other s) => pyStrip s
  | .error _ => fallbackText

/-- The fixed help text returned for inputs `help` / `commands`. -/
def helpText : PyStr :=
  ("You can ask questions like:\n- What is Bitcoin?\n- How much is Ethereum?\n" ++
    "- What's the price of Cardano?\n- Show me Bitcoin chart\n\n" ++
    "Or ask general questions about cryptocurrencies and blockchain technology.").toList

/-- The chart-request keywords of `process_message`. -/
def chartWords : List PyStr :=
  ["chart".toList, "graph".toList, "trend".toList, "history".toList]

/-- The price-query keywords of `process_message`. -/
def priceWords : List PyStr :=
  ["price".toList, "how much".toList, "value".toList]

/-- The returned chat message: `{"role": ..., "content": ..., "extra_data":
{"show_chart": True, "coin": c}}`; `showChart = some c` records the
`extra_data` of a chart response. -/
structure Msg where
  role : PyStr
  content : PyStr
  showChart : Option PyStr
deriving DecidableEq

/-- `process_message` from src/streamlit_app.py.  Returns `none` exactly
where the Python function returns `None`: on falsy (empty) input, and on the
dead inner fallthrough of the chart branch. -/
def process_message (invoke : PyStr → Except PyExc InvokeResult)
    (user_input : PyStr) : Option Msg :=
  if user_input = [] then none
  else if lower user_input = "help".toList ∨ lower user_input = "commands".toList then
    some ⟨"assistant".toList, helpText, none⟩
  else if (∃ w ∈ chartWords, w <:+: lower user_input)
      ∧ (∃ e ∈ price_data, e.1 <:+: lower user_input) then
    match price_data.find? (fun e => decide (e.1 <:+: lower user_input)) with
    | some e => some ⟨"assistant".toList, format_price e.1 true, some e.1⟩
    | none => none
  else if (∃ w ∈ priceWords, w <:+: lower user_input)
      ∧ (∃ e ∈ price_data, e.1 <:+: lower user_input) then
    match price_data.find? (fun e => decide (e.1 <:+: lower user_input)) with
    | some e => some ⟨"assistant".toList, format_price e.1 false, none⟩
    | none => some ⟨"assistant".toList, handle_price_query user_input, none⟩
  else if ("what is".toList <:+: lower user_input)
      ∨ ("what's".toList <:+: lower user_input)
      ∨ ("explain".toList <:+: lower user_input) then
    some ⟨"assistant".toList, get_llm_response invoke (build_prompt user_input), none⟩
  else
    some ⟨"assistant".toList, get_llm_response invoke (build_prompt user_input), none⟩

end Streamlit

namespace App

/-! ## src/app.py -/

/-- The `price_trend` attribute values in `crypto_db`. -/
inductive Trend where
  | rising
  | stable
  | falling
deriving DecidableEq

/-- The `market_cap` / `energy_use` attribute values in `crypto_db`. -/
inductive Level where
  | low
  | medium
  | high
deriving DecidableEq

/-- One entry of `crypto_db` in src/app.py. -/
structure CoinProfile where
  price_trend : Trend
  market_cap : Level
  energy_use : Level
  sustainability_score : Int
deriving DecidableEq

/-- A knowledge base: coin names with their profiles, in declaration order. -/
abbrev KB := List (PyStr × CoinProfile)

/-- `crypto_db` from src/app.py (declaration order preserved). -/
def crypto_db : KB :=
  [ ("Bitcoin".toList, ⟨.rising, .high, .high, 3⟩),
    ("Ethereum".toList, ⟨.stable, .high, .medium, 6⟩),
    ("Cardano".toList, ⟨.rising, .medium, .low, 8⟩) ]

/-- `get_crypto_data` from src/app.py.  `fetch` is the HTTP call plus JSON
parse: `Except.error` is any raised exception, swallowed and mapped to the
empty dict.  The parsed payload dict is abstracted to `Option Int`: `none`
is the empty (falsy) dict, `some c` a non-empty dict whose extracted
`usd` value (`data.get(coin, {}).get("usd", 0)`) is `c / 100` dollars. -/
def get_crypto_data (fetch : Except PyExc (Option Int)) : Option Int :=
  match fetch with
  | .ok d => d
  | .error _ => none

/-- `format_price` from src/app.py: `f"${price:,.2f}"` on a value of
`c / 100` dollars. -/
def format_price (c : Int) : PyStr := '$' :: formatComma2 c

/-- `build_prompt` from src/app.py. -/
def build_prompt (user_input : PyStr) : PyStr :=
  "Q: ".toList ++ user_input ++ "\nA:".toList

/-- `get_llm_response` from src/app.py.  `textGen` is the Hugging Face
`text_generation` call; `.ok g` carries `response.generated_text`,
`Except.error` is any raised exception, caught and mapped to the fixed
fallback string. -/
def get_llm_response (textGen : PyStr → Except PyExc PyStr)
    (prompt : PyStr) : PyStr :=
  match textGen prompt with
  | .ok g => pyStrip g
  | .error _ => fallbackText

/-- CPython `max(iterable, key=key)`: the first element of the list whose key
no later element strictly exceeds (`if key(x) > key(result): result = x`);
`none` on the empty list (Python raises `ValueError` there). -/
def pyMax (key : α → Int) : List α → Option α
  | [] => none
  | a :: rest => some (rest.foldl (fun acc x => if key acc < key x then x else acc) a)

/-- The sustainability responder's selection:
`max(crypto_db, key=lambda x: crypto_db[x]["sustainability_score"])`,
generalised over the knowledge base. -/
def sustainabilityPick (kb : KB) : Option PyStr :=
  (pyMax (fun e => e.2.sustainability_score) kb).map Prod.fst

/-- The trend responder's selection:
`[coin for coin in crypto_db if crypto_db[coin]["price_trend"] == "rising"]`,
generalised over the knowledge base. -/
def trendingCoins (kb : KB) : List PyStr :=
  (kb.filter (fun e => decide (e.2.price_trend = Trend.rising))).map Prod.fst

/-- The trend responder's full reply:
`f"These coins are trending up 📈: {', '.join(trending)}{price_info}"`. -/
def trendResponse (kb : KB) (price_info : PyStr) : PyStr :=
  "These coins are trending up 📈: ".toList ++ joinComma (trendingCoins kb)
    ++ price_info

/-- The sustainability responder's full reply:
`f"{recommend} 🌱 is one of the most eco-friendly coins!{price_info}"`
(`none` branch unreachable in the program: `crypto_db` is non-empty). -/
def sustainabilityResponse (kb : KB) (price_info : PyStr) : PyStr :=
  match sustainabilityPick kb with
  | some c => c ++ " 🌱 is one of the most eco-friendly coins!".toList ++ price_info
  | none => []

/-- The profitability responder's selection:
`[coin for coin in crypto_db if rising and market_cap == "high"]`. -/
def profitableCoins (kb : KB) : List PyStr :=
  (kb.filter (fun e =>
    decide (e.2.price_trend = Trend.rising ∧ e.2.market_cap = Level.high))).map
    Prod.fst

/-- The profitability responder's full reply (the empty-list branch returns
the fixed string without `price_info`). -/
def profitabilityResponse (kb : KB) (price_info : PyStr) : PyStr :=
  match profitableCoins kb with
  | p :: _ => p ++ " 🚀 looks promising for investment!".toList ++ price_info
  | [] => "No hot picks at the moment. 🧐".toList

/-- The `price_info` suffix of `respond_to_query`: built only when both
fetched dicts are truthy (non-empty), otherwise the empty string. -/
def price_info (btc_data eth_data : Option Int) : PyStr :=
  match btc_data, eth_data with
  | some b, some e =>
    "\nCurrent prices:\nBitcoin: ".toList ++ format_price b
      ++ "\nEthereum: ".toList ++ format_price e
  | _, _ => []

/-- `respond_to_query` from src/app.py.  `textGen` is the LLM oracle,
`btcFetch` / `ethFetch` the outcomes of the two `get_crypto_data` calls.
The `chat_history.append` side effect does not affect the returned value and
is not modelled. -/
def respond_to_query (textGen : PyStr → Except PyExc PyStr)
    (btcFetch ethFetch : Except PyExc (Option Int)) (user_query : PyStr) : PyStr :=
  let q := lower user_query
  let pinfo := price_info (get_crypto_data btcFetch) (get_crypto_data ethFetch)
  if "sustainable".toList <:+: q then
    sustainabilityResponse crypto_db pinfo
  else if ("trending".toList <:+: q) ∨ ("up".toList <:+: q) then
    trendResponse crypto_db pinfo
  else if ("profitable".toList <:+: q) ∨ ("invest".toList <:+: q) then
    profitabilityResponse crypto_db pinfo
  else
    get_llm_response textGen (build_prompt q) ++ pinfo

end App

/-! ## Helper lemmas -/

lemma walk_length (rand : Nat → ℚ) (vol : ℚ) :
    ∀ (n : Nat) (p : ℚ) (i : Nat), (Streamlit.walk rand vol p i n).length = n := by
  intro n
  induction n with
  | zero => intro p i; rfl
  | succ n ih => intro p i; simp [Streamlit.walk, ih]

lemma setLast_eq (v : ℚ) :
    ∀ (l : List ℚ), l ≠ [] → Streamlit.setLast l v = l.dropLast ++ [v] := by
  intro l
  induction l with
  | nil => intro h; exact absurd rfl h
  | cons a t ih =>
    intro _
    cases t with
    | nil => rfl
    | cons b r =>
      show a :: Streamlit.setLast (b :: r) v = _
      rw [ih (by simp)]
      rfl

lemma dateRange_length (t : ℤ) (n : Nat) : (Streamlit.dateRange t n).length = n := by
  simp only [Streamlit.dateRange, List.length_map, List.length_range]

lemma dateRange_chain (t : ℤ) (n : Nat) :
    List.Chain' (fun a b : ℤ => a + 1 = b) (Streamlit.dateRange t n) := by
  rw [List.chain'_iff_get]
  intro i h
  simp only [Streamlit.dateRange, List.get_eq_getElem, List.getElem_map,
    List.getElem_range]
  push_cast
  ring

lemma dateRange_getLast (t : ℤ) (n : Nat) (h : n ≠ 0) :
    (Streamlit.dateRange t n).getLast? = some t := by
  rw [List.getLast?_eq_getElem?, dateRange_length]
  simp only [Streamlit.dateRange]
  rw [List.getElem?_map, List.getElem?_range (by omega : n - 1 < n)]
  have he : t - ((n : ℤ) - 1) + ((n - 1 : Nat) : ℤ) = t := by omega
  simp [he]

/-! ## Claim theorems -/

/-- C1 counterexample: the price responder of src/streamlit_app.py does not
return the bare template claimed by the spec; on bitcoin (price 43500.0,
change +1.2) its output differs from
`"Bitcoin is $43,500.00 (+1.20% in 24h)"`. -/
theorem format_price_not_bare_name_template :
    Streamlit.format_price "bitcoin".toList false ≠
      "Bitcoin is $43,500.00 (+1.20% in 24h)".toList := by decide

/-- C1 (amended): for every coin present in the price store (bitcoin,
ethereum, cardano), the price responder formats the stored quote as
`"The current price of {Name} {symbol} is ${price:,.2f} ({marker} {change:+.2f}% in 24h)."`
where the marker is 🟢 for positive 24h change and 🔴 otherwise; at the three
stored quotes this renders exactly the strings below. -/
theorem format_price_renders_stored_quotes :
    Streamlit.format_price "bitcoin".toList false =
      "The current price of Bitcoin ₿ is $43,500.00 (🟢 +1.20% in 24h).".toList
    ∧ Streamlit.format_price "ethereum".toList false =
      "The current price of Ethereum Ξ is $3,250.00 (🔴 -0.50% in 24h).".toList
    ∧ Streamlit.format_price "cardano".toList false =
      "The current price of Cardano ₳ is $0.62 (🟢 +0.80% in 24h).".toList :=
  ⟨by decide, by decide, by decide⟩

/-- C6: a query about a coin absent from the price store degrades to the
fixed no-data message and cannot fail: `format_price` returns it whenever
the coin is not a key of `price_data`, and `handle_price_query` returns it
whenever no stored coin name occurs in the lowered query. -/
theorem price_responder_missing_coin :
    (∀ coin, dictGet Streamlit.price_data coin = none →
      Streamlit.format_price coin false =
        ("Sorry, I don't have data for that cryptocurrency. " ++
          "Try asking about Bitcoin, Ethereum, or Cardano.").toList)
    ∧ ∀ query, (∀ e ∈ Streamlit.price_data, ¬ e.1 <:+: lower query) →
      Streamlit.handle_price_query query =
        ("Sorry, I don't have data for that cryptocurrency. " ++
          "Try asking about Bitcoin, Ethereum, or Cardano.").toList := by
  constructor
  · intro coin h
    unfold Streamlit.format_price
    rw [h]
  · intro q h
    unfold Streamlit.handle_price_query
    have hnone : Streamlit.price_data.find?
        (fun e => decide (e.1 <:+: lower q)) = none := by
      rw [List.find?_eq_none]
      intro e he
      simpa using h e he
    rw [hnone]

/-- C6 witness: the spec's own example, `dogecoin`. -/
theorem price_responder_missing_coin_witness :
    Streamlit.format_price "dogecoin".toList false =
      ("Sorry, I don't have data for that cryptocurrency. " ++
        "Try asking about Bitcoin, Ethereum, or Cardano.").toList
    ∧ Streamlit.handle_price_query "how much is dogecoin worth".toList =
      ("Sorry, I don't have data for that cryptocurrency. " ++
        "Try asking about Bitcoin, Ethereum, or Cardano.").toList :=
  ⟨price_responder_missing_coin.1 _ (by decide),
   price_responder_missing_coin.2 _ (by decide)⟩

/-- C7: both LLM gateways map every raised provider exception (network
failure, provider-side error, malformed response object — anything that
raises inside the `try` block) to the single fixed fallback string; being
total Lean functions they propagate no exception to their callers. -/
theorem llm_gateway_fallback :
    (∀ (invoke : PyStr → Except PyExc Streamlit.InvokeResult) (prompt : PyStr)
        (e : PyExc), invoke prompt = .error e →
      Streamlit.get_llm_response invoke prompt = fallbackText)
    ∧ ∀ (textGen : PyStr → Except PyExc PyStr) (prompt : PyStr) (e : PyExc),
        textGen prompt = .error e →
      App.get_llm_response textGen prompt = fallbackText := by
  constructor
  · intro invoke prompt e h
    unfold Streamlit.get_llm_response
    rw [h]
  · intro textGen prompt e h
    unfold App.get_llm_response
    rw [h]

/-- C7 witness: a provider that always raises yields the fallback string in
both variants. -/
theorem llm_gateway_fallback_witness :
    Streamlit.get_llm_response (fun _ => .error ⟨"timeout".toList⟩)
      "what is bitcoin".toList = fallbackText
    ∧ App.get_llm_response (fun _ => .error ⟨"timeout".toList⟩)
      "Q: hi\nA:".toList = fallbackText :=
  ⟨llm_gateway_fallback.1 _ _ ⟨"timeout".toList⟩ rfl,
   llm_gateway_fallback.2 _ _ ⟨"timeout".toList⟩ rfl⟩

/-- C5 counterexample: on the empty input the Streamlit router returns no
message at all (`process_message` returns `None` for falsy input), so the
router does not return a `ResponseMessage` for every input string. -/
theorem process_message_empty_input_returns_none :
    Streamlit.process_message (fun _ => .error ⟨[]⟩) [] = none := rfl

/-- C5 (amended): for every non-empty input the Streamlit router returns a
message, whatever the LLM oracle does (the CLI router `respond_to_query` is
total by construction — it is embedded as a total function to `PyStr`);
only the empty input yields `None`. -/
theorem router_returns_message_on_nonempty_input :
    ∀ (invoke : PyStr → Except PyExc Streamlit.InvokeResult) (input : PyStr),
      input ≠ [] → (Streamlit.process_message invoke input).isSome = true := by
  intro invoke input hne
  unfold Streamlit.process_message
  rw [if_neg hne]
  by_cases h2 : lower input = "help".toList ∨ lower input = "commands".toList
  · rw [if_pos h2]
    rfl
  rw [if_neg h2]
  by_cases h3 : (∃ w ∈ Streamlit.chartWords, w <:+: lower input)
      ∧ ∃ e ∈ Streamlit.price_data, e.1 <:+: lower input
  · rw [if_pos h3]
    have hsome : (Streamlit.price_data.find?
        (fun e => decide (e.1 <:+: lower input))).isSome = true := by
      rw [List.find?_isSome]
      obtain ⟨e, he, hi⟩ := h3.2
      exact ⟨e, he, by simpa using hi⟩
    obtain ⟨e, hfe⟩ := Option.isSome_iff_exists.mp hsome
    rw [hfe]
    rfl
  rw [if_neg h3]
  by_cases h4 : (∃ w ∈ Streamlit.priceWords, w <:+: lower input)
      ∧ ∃ e ∈ Streamlit.price_data, e.1 <:+: lower input
  · rw [if_pos h4]
    cases hfe : Streamlit.price_data.find?
        (fun e => decide (e.1 <:+: lower input)) with
    | none => rfl
    | some e => rfl
  rw [if_neg h4]
  by_cases h6 : ("what is".toList <:+: lower input)
      ∨ ("what's".toList <:+: lower input) ∨ ("explain".toList <:+: lower input)
  · rw [if_pos h6]
    rfl
  · rw [if_neg h6]
    rfl

/-- C2: for every coin present in the price store, every "today" and every
state of the random source, the generated series has exactly 30 points, its
dates are consecutive days in strictly ascending order ending today, and its
final price equals the stored current price exactly (the overwrite
`prices[-1] = current_price` wins over the random walk). -/
theorem generate_price_history_spec :
    ∀ (coin : PyStr) (data : Streamlit.PriceData) (today : ℤ) (rand : Nat → ℚ),
      dictGet Streamlit.price_data coin = some data →
      ∃ pts, Streamlit.generate_price_history coin today rand = some pts
        ∧ pts.length = 30
        ∧ pts.map Prod.fst = Streamlit.dateRange today 30
        ∧ List.Chain' (fun a b : ℤ => a + 1 = b) (pts.map Prod.fst)
        ∧ (pts.map Prod.fst).getLast? = some today
        ∧ (pts.map Prod.snd).getLast? = some data.price := by
  intro coin data today rand h
  have hwl : (Streamlit.walk rand (Streamlit.volatility coin)
      (Streamlit.startPrice data) 0 30).length = 30 := walk_length rand _ 30 _ 0
  have hwne : Streamlit.walk rand (Streamlit.volatility coin)
      (Streamlit.startPrice data) 0 30 ≠ [] := by
    intro hnil
    rw [hnil] at hwl
    exact absurd hwl (by decide)
  have hsl : (Streamlit.setLast (Streamlit.walk rand (Streamlit.volatility coin)
      (Streamlit.startPrice data) 0 30) data.price).length = 30 := by
    rw [setLast_eq _ _ hwne, List.length_append, List.length_dropLast, hwl]
    simp
  have hdl := dateRange_length today 30
  have hfst : ((Streamlit.dateRange today 30).zip
        (Streamlit.setLast (Streamlit.walk rand (Streamlit.volatility coin)
          (Streamlit.startPrice data) 0 30) data.price)).map Prod.fst
      = Streamlit.dateRange today 30 :=
    List.map_fst_zip _ _ (by rw [hdl, hsl])
  have hsnd : ((Streamlit.dateRange today 30).zip
        (Streamlit.setLast (Streamlit.walk rand (Streamlit.volatility coin)
          (Streamlit.startPrice data) 0 30) data.price)).map Prod.snd
      = Streamlit.setLast (Streamlit.walk rand (Streamlit.volatility coin)
          (Streamlit.startPrice data) 0 30) data.price :=
    List.map_snd_zip _ _ (by rw [hdl, hsl])
  refine ⟨(Streamlit.dateRange today 30).zip
      (Streamlit.setLast (Streamlit.walk rand (Streamlit.volatility coin)
        (Streamlit.startPrice data) 0 30) data.price), ?_, ?_, hfst, ?_, ?_, ?_⟩
  · unfold Streamlit.generate_price_history
    rw [h]
  · rw [List.length_zip, hdl, hsl]
    simp
  · rw [hfst]
    exact dateRange_chain today 30
  · rw [hfst]
    exact dateRange_getLast today 30 (by decide)
  · rw [hsnd, setLast_eq _ _ hwne, List.getLast?_concat]

/-- C2 witness: bitcoin, today = 0, the all-zero random source. -/
theorem generate_price_history_spec_witness :
    dictGet Streamlit.price_data "bitcoin".toList = some Streamlit.bitcoinEntry
    ∧ ∃ pts, Streamlit.generate_price_history "bitcoin".toList 0 (fun _ => 0)
        = some pts
      ∧ pts.length = 30
      ∧ pts.map Prod.fst = Streamlit.dateRange 0 30
      ∧ List.Chain' (fun a b : ℤ => a + 1 = b) (pts.map Prod.fst)
      ∧ (pts.map Prod.fst).getLast? = some 0
      ∧ (pts.map Prod.snd).getLast? = some Streamlit.bitcoinEntry.price :=
  ⟨rfl, generate_price_history_spec "bitcoin".toList Streamlit.bitcoinEntry 0
    (fun _ => 0) rfl⟩

/-- C3 counterexample: the claimed back-projection
`current_price / (1 + change_24h/100 * 30)` disagrees with the start value
the code computes (`current_price * (1 - change_24h/100 * 30)`) already on
bitcoin: 27840 versus 43500/1.36. -/
theorem startPrice_ne_spec_division_form :
    Streamlit.startPrice Streamlit.bitcoinEntry ≠
      Streamlit.specStartPrice Streamlit.bitcoinEntry := by
  norm_num [Streamlit.startPrice, Streamlit.specStartPrice,
    Streamlit.PriceData.price, Streamlit.PriceData.change, Streamlit.bitcoinEntry]

/-- C3 (amended): the random walk starts from an estimated prior price of
`current_price * (1 - change_24h/100 * 30)` — a multiplication, not the
spec's division: on bitcoin that start value is 27840, and the first
generated point carries that start value times the first daily return. -/
theorem generate_starts_from_linear_backprojection :
    Streamlit.startPrice Streamlit.bitcoinEntry = 27840
    ∧ ∀ (coin : PyStr) (data : Streamlit.PriceData) (today : ℤ) (rand : Nat → ℚ),
      dictGet Streamlit.price_data coin = some data →
      ∃ pts, Streamlit.generate_price_history coin today rand = some pts
        ∧ (pts.map Prod.snd).head? =
          some (data.price * (1 - data.change / 100 * 30)
            * (1 + Streamlit.volatility coin * rand 0)) := by
  constructor
  · norm_num [Streamlit.startPrice, Streamlit.PriceData.price,
      Streamlit.PriceData.change, Streamlit.bitcoinEntry]
  · intro coin data today rand h
    have hwl : (Streamlit.walk rand (Streamlit.volatility coin)
        (Streamlit.startPrice data) 0 30).length = 30 := walk_length rand _ 30 _ 0
    have hsl : (Streamlit.setLast (Streamlit.walk rand (Streamlit.volatility coin)
        (Streamlit.startPrice data) 0 30) data.price).length = 30 := by
      rw [setLast_eq _ _ (by intro hnil; rw [hnil] at hwl; exact absurd hwl (by decide)),
        List.length_append, List.length_dropLast, hwl]
      simp
    have hsnd : ((Streamlit.dateRange today 30).zip
          (Streamlit.setLast (Streamlit.walk rand (Streamlit.volatility coin)
            (Streamlit.startPrice data) 0 30) data.price)).map Prod.snd
        = Streamlit.setLast (Streamlit.walk rand (Streamlit.volatility coin)
            (Streamlit.startPrice data) 0 30) data.price :=
      List.map_snd_zip _ _ (by rw [dateRange_length, hsl])
    refine ⟨(Streamlit.dateRange today 30).zip
        (Streamlit.setLast (Streamlit.walk rand (Streamlit.volatility coin)
          (Streamlit.startPrice data) 0 30) data.price), ?_, ?_⟩
    · unfold Streamlit.generate_price_history
      rw [h]
    · rw [hsnd]
      rfl

/-- C3 witness: bitcoin, today = 0, the constant-one random source. -/
theorem generate_starts_from_linear_backprojection_witness :
    ∃ pts, Streamlit.generate_price_history "bitcoin".toList 0 (fun _ => 1)
        = some pts
      ∧ (pts.map Prod.snd).head? =
        some (Streamlit.bitcoinEntry.price
          * (1 - Streamlit.bitcoinEntry.change / 100 * 30)
          * (1 + Streamlit.volatility "bitcoin".toList * 1)) :=
  generate_starts_from_linear_backprojection.2 "bitcoin".toList
    Streamlit.bitcoinEntry 0 (fun _ => 1) rfl

/-- C4 helper: the fold underlying CPython `max(..., key=key)` returns
either the seed (when nothing strictly exceeds it) or the element at the
first index whose key strictly exceeds the seed and every earlier element,
and which no element's key exceeds. -/
lemma pyMax_fold_spec (key : α → Int) :
    ∀ (l : List α) (a : α),
      (l.foldl (fun acc x => if key acc < key x then x else acc) a = a
        ∧ ∀ x ∈ l, key x ≤ key a)
      ∨ ∃ i, ∃ h : i < l.length,
          l.foldl (fun acc x => if key acc < key x then x else acc) a = l[i]
          ∧ key a < key l[i]
          ∧ (∀ j (hj : j < l.length), j < i → key l[j] < key l[i])
          ∧ ∀ j (hj : j < l.length), key l[j] ≤ key l[i] := by
  intro l
  induction l with
  | nil =>
    intro a
    exact Or.inl ⟨rfl, by simp⟩
  | cons x xs ih =>
    intro a
    rw [List.foldl_cons]
    by_cases hax : key a < key x
    · rw [if_pos hax]
      rcases ih x with ⟨heq, hall⟩ | ⟨i, hi, heq, hlt, hstrict, hle⟩
      · refine Or.inr ⟨0, by simp, ?_, ?_, ?_, ?_⟩
        · simpa using heq
        · simpa using hax
        · intro j hj hj0
          exact absurd hj0 (Nat.not_lt_zero j)
        · intro j hj
          cases j with
          | zero => simp
          | succ j =>
            simp only [List.getElem_cons_succ, List.getElem_cons_zero]
            exact hall _ (List.getElem_mem _)
      · refine Or.inr ⟨i + 1, by simpa using hi, ?_, ?_, ?_, ?_⟩
        · simpa using heq
        · simpa using hax.trans hlt
        · intro j hj hji
          cases j with
          | zero => simpa using hlt
          | succ j =>
            simp only [List.getElem_cons_succ]
            exact hstrict j (by simpa using hj) (by omega)
        · intro j hj
          cases j with
          | zero => simpa using hlt.le
          | succ j =>
            simp only [List.getElem_cons_succ]
            exact hle j (by simpa using hj)
    · rw [if_neg hax]
      rcases ih a with ⟨heq, hall⟩ | ⟨i, hi, heq, hlt, hstrict, hle⟩
      · refine Or.inl ⟨heq, ?_⟩
        intro y hy
        rcases List.mem_cons.mp hy with rfl | hy
        · exact le_of_not_lt hax
        · exact hall y hy
      · refine Or.inr ⟨i + 1, by simpa using hi, ?_, ?_, ?_, ?_⟩
        · simpa using heq
        · simpa using hlt
        · intro j hj hji
          cases j with
          | zero => simpa using (le_of_not_lt hax).trans_lt hlt
          | succ j =>
            simp only [List.getElem_cons_succ]
            exact hstrict j (by simpa using hj) (by omega)
        · intro j hj
          cases j with
          | zero => simpa using ((le_of_not_lt hax).trans hlt.le)
          | succ j =>
            simp only [List.getElem_cons_succ]
            exact hle j (by simpa using hj)

/-- C4: the sustainability responder picks Cardano from the shipped
Knowledge Base, and in general for every non-empty Knowledge Base the pick
is the coin at the first index attaining the maximal sustainability score:
no coin scores higher, and every earlier-declared coin scores strictly
lower (so on ties the first-declared coin wins). -/
theorem sustainability_picks_first_maximal :
    App.sustainabilityPick App.crypto_db = some "Cardano".toList
    ∧ ∀ (kb : App.KB), kb ≠ [] →
      ∃ i, ∃ h : i < kb.length,
        App.sustainabilityPick kb = some kb[i].1
        ∧ (∀ j (hj : j < kb.length),
            kb[j].2.sustainability_score ≤ kb[i].2.sustainability_score)
        ∧ ∀ j (hj : j < kb.length), j < i →
            kb[j].2.sustainability_score < kb[i].2.sustainability_score := by
  constructor
  · decide
  intro kb hne
  match kb, hne with
  | a :: rest, _ =>
    rcases pyMax_fold_spec (fun e => e.2.sustainability_score) rest a with
      ⟨heq, hall⟩ | ⟨i, hi, heq, hlt, hstrict, hle⟩
    · refine ⟨0, by simp, ?_, ?_, ?_⟩
      · simp only [App.sustainabilityPick, App.pyMax, heq, List.getElem_cons_zero]
        rfl
      · intro j hj
        cases j with
        | zero => simp
        | succ j =>
          simp only [List.getElem_cons_succ, List.getElem_cons_zero]
          exact hall _ (List.getElem_mem _)
      · intro j hj hj0
        exact absurd hj0 (Nat.not_lt_zero j)
    · refine ⟨i + 1, by simpa using hi, ?_, ?_, ?_⟩
      · simp only [App.sustainabilityPick, App.pyMax, heq, List.getElem_cons_succ]
        rfl
      · intro j hj
        cases j with
        | zero => simpa using hlt.le
        | succ j =>
          simp only [List.getElem_cons_succ]
          exact hle j (by simpa using hj)
      · intro j hj hji
        cases j with
        | zero => simpa using hlt
        | succ j =>
          simp only [List.getElem_cons_succ]
          exact hstrict j (by simpa using hj) (by omega)

/-- C4 witness: the shipped Knowledge Base (Bitcoin 3, Ethereum 6,
Cardano 8) is non-empty, so the characterisation applies to it. -/
theorem sustainability_picks_first_maximal_witness :
    App.crypto_db ≠ []
    ∧ ∃ i, ∃ h : i < App.crypto_db.length,
        App.sustainabilityPick App.crypto_db = some App.crypto_db[i].1
        ∧ (∀ j (hj : j < App.crypto_db.length),
            App.crypto_db[j].2.sustainability_score
              ≤ App.crypto_db[i].2.sustainability_score)
        ∧ ∀ j (hj : j < App.crypto_db.length), j < i →
            App.crypto_db[j].2.sustainability_score
              < App.crypto_db[i].2.sustainability_score :=
  ⟨by decide, sustainability_picks_first_maximal.2 App.crypto_db (by decide)⟩

/-- C5 witness: a concrete non-empty input always yields a message. -/
theorem router_returns_message_on_nonempty_input_witness :
    ("hello".toList ≠ ([] : PyStr))
    ∧ (Streamlit.process_message (fun _ => .error ⟨[]⟩)
        "hello".toList).isSome = true :=
  ⟨by decide, router_returns_message_on_nonempty_input _ _ (by decide)⟩

/-- C8 counterexample: for a Knowledge Base in which no coin is rising the
trend responder does not return a "nothing trending" message — it returns
the usual trending-up template with an empty coin list. -/
theorem trend_responder_no_fallback_counterexample :
    App.trendResponse
      [("Ethereum".toList, ⟨App.Trend.stable, App.Level.high, App.Level.medium, 6⟩)]
      [] = "These coins are trending up 📈: ".toList := by decide

/-- C8 (amended): the trend responder lists exactly the coins whose
`price_trend` is rising, in Knowledge Base declaration order (the listed
names form a sublist of the declaration order, contain every rising coin and
only rising coins); when no coin is rising it returns the same template with
an empty list, not a distinct "nothing trending" message. -/
theorem trend_responder_spec :
    ∀ (kb : App.KB) (pinfo : PyStr),
      List.Sublist (App.trendingCoins kb) (kb.map Prod.fst)
      ∧ (∀ e ∈ kb, e.2.price_trend = App.Trend.rising →
          e.1 ∈ App.trendingCoins kb)
      ∧ (∀ c ∈ App.trendingCoins kb,
          ∃ p, (c, p) ∈ kb ∧ p.price_trend = App.Trend.rising)
      ∧ ((∀ e ∈ kb, e.2.price_trend ≠ App.Trend.rising) →
          App.trendResponse kb pinfo
            = "These coins are trending up 📈: ".toList ++ pinfo) := by
  intro kb pinfo
  refine ⟨?_, ?_, ?_, ?_⟩
  · exact (List.filter_sublist kb).map Prod.fst
  · intro e he hr
    exact List.mem_map_of_mem _ (List.mem_filter.mpr ⟨he, by simpa using hr⟩)
  · intro c hc
    obtain ⟨e, he, rfl⟩ := List.mem_map.mp hc
    have hm := List.mem_filter.mp he
    exact ⟨e.2, by simpa using hm.1, by simpa using hm.2⟩
  · intro hnone
    have hnil : App.trendingCoins kb = [] := by
      unfold App.trendingCoins
      rw [List.filter_eq_nil_iff.mpr (fun e he => by simpa using hnone e he)]
      rfl
    unfold App.trendResponse
    rw [hnil]
    simp [joinComma]

/-- C8 witness: a single-coin stable Knowledge Base with a non-empty price
suffix exercises the no-rising-coin branch. -/
theorem trend_responder_spec_witness :
    App.trendResponse
      [("Ethereum".toList, ⟨App.Trend.stable, App.Level.high, App.Level.medium, 6⟩)]
      "X".toList = "These coins are trending up 📈: ".toList ++ "X".toList :=
  (trend_responder_spec _ _).2.2.2 (by decide)

/-- C9: any input containing one of the chart keywords (chart, graph, trend,
history) together with a stored coin name is answered by the chart branch of
`process_message` — the chart test precedes the price test and there is no
separate trend responder in that router — returning the price summary with
the chart marker for the first matching coin. -/
theorem chart_request_wins_over_trend :
    ∀ (invoke : PyStr → Except PyExc Streamlit.InvokeResult) (input : PyStr),
      (∃ w ∈ Streamlit.chartWords, w <:+: lower input) →
      (∃ e ∈ Streamlit.price_data, e.1 <:+: lower input) →
      ∃ e, Streamlit.price_data.find?
          (fun e => decide (e.1 <:+: lower input)) = some e
        ∧ Streamlit.process_message invoke input
          = some ⟨"assistant".toList, Streamlit.format_price e.1 true, some e.1⟩ := by
  intro invoke input hkw hcoin
  obtain ⟨c, hcmem, hinf⟩ := hcoin
  have hcases : c = ("bitcoin".toList, Streamlit.bitcoinEntry)
      ∨ c = ("ethereum".toList, Streamlit.ethereumEntry)
      ∨ c = ("cardano".toList, Streamlit.cardanoEntry) := by
    simpa [Streamlit.price_data] using hcmem
  have hne : input ≠ [] := by
    intro h0
    rw [h0] at hinf
    rcases hcases with rfl | rfl | rfl <;> exact absurd hinf (by decide)
  have hnh : ¬(lower input = "help".toList ∨ lower input = "commands".toList) := by
    rintro (h | h) <;> rw [h] at hinf <;>
      rcases hcases with rfl | rfl | rfl <;> exact absurd hinf (by decide)
  have hsome : (Streamlit.price_data.find?
      (fun e => decide (e.1 <:+: lower input))).isSome = true := by
    rw [List.find?_isSome]
    exact ⟨c, hcmem, by simpa using hinf⟩
  obtain ⟨e, hfe⟩ := Option.isSome_iff_exists.mp hsome
  refine ⟨e, hfe, ?_⟩
  unfold Streamlit.process_message
  rw [if_neg hne, if_neg hnh, if_pos ⟨hkw, c, hcmem, hinf⟩, hfe]

/-- C9 witness: the spec's oracle input "show me the bitcoin chart trend"
yields the chart response for bitcoin, whatever the LLM oracle does. -/
theorem chart_request_wins_over_trend_witness :
    ∃ e, Streamlit.price_data.find?
        (fun e => decide (e.1 <:+: lower "show me the bitcoin chart trend".toList))
        = some e
      ∧ Streamlit.process_message (fun _ => .error ⟨"zzz".toList⟩)
          "show me the bitcoin chart trend".toList
        = some ⟨"assistant".toList, Streamlit.format_price e.1 true, some e.1⟩ :=
  chart_request_wins_over_trend _ _ (by decide) (by decide)

/-- C10 helper: whatever branch of the CLI router runs, the returned text is
the suffix-free base response (the one produced when both fetches fail)
followed by the `price_info` suffix of the two fetch outcomes. -/
lemma respond_price_info_split :
    ∀ (textGen : PyStr → Except PyExc PyStr)
      (bf ef : Except PyExc (Option Int)) (q : PyStr),
      App.respond_to_query textGen bf ef q
        = App.respond_to_query textGen (.error ⟨[]⟩) (.error ⟨[]⟩) q
          ++ App.price_info (App.get_crypto_data bf) (App.get_crypto_data ef) := by
  intro textGen bf ef q
  simp only [App.respond_to_query]
  have hpick : App.sustainabilityPick App.crypto_db = some "Cardano".toList := by
    decide
  have hprof : App.profitableCoins App.crypto_db = ["Bitcoin".toList] := by
    decide
  split_ifs
  · simp [App.sustainabilityResponse, hpick, App.price_info, App.get_crypto_data]
  · simp [App.trendResponse, App.price_info, App.get_crypto_data]
  · simp [App.profitabilityResponse, hprof, App.price_info, App.get_crypto_data]
  · simp [App.price_info, App.get_crypto_data]

/-- C10: for every query, when both CoinGecko fetches return non-empty data
the CLI router's reply is the base reply with the `"\nCurrent prices:"`
suffix appended (so the suffix is a suffix of the reply in every branch —
sustainability, trend, profitability and the LLM path alike), and when
either fetch raises the same base reply is returned unchanged;
`get_crypto_data` swallows the exception into an empty payload. -/
theorem respond_appends_price_info_suffix :
    ∀ (textGen : PyStr → Except PyExc PyStr) (q : PyStr) (b e : Int)
      (ex : PyExc),
      (App.respond_to_query textGen (.ok (some b)) (.ok (some e)) q
        = App.respond_to_query textGen (.error ex) (.error ex) q
          ++ App.price_info (some b) (some e))
      ∧ App.price_info (some b) (some e)
          <:+ App.respond_to_query textGen (.ok (some b)) (.ok (some e)) q
      ∧ App.price_info (some b) (some e)
        = "\nCurrent prices:\nBitcoin: ".toList ++ App.format_price b
            ++ "\nEthereum: ".toList ++ App.format_price e
      ∧ (∀ o, App.respond_to_query textGen (.error ex) o q
          = App.respond_to_query textGen (.error ex) (.error ex) q)
      ∧ (∀ o, App.respond_to_query textGen o (.error ex) q
          = App.respond_to_query textGen (.error ex) (.error ex) q)
      ∧ App.get_crypto_data (.error ex) = none := by
  intro textGen q b e ex
  have hbase : ∀ (bf ef : Except PyExc (Option Int)),
      App.price_info (App.get_crypto_data bf) (App.get_crypto_data ef) = [] →
      App.respond_to_query textGen bf ef q
        = App.respond_to_query textGen (.error ⟨[]⟩) (.error ⟨[]⟩) q := by
    intro bf ef hnil
    rw [respond_price_info_split textGen bf ef q, hnil, List.append_nil]
  have hex : App.respond_to_query textGen (.error ex) (.error ex) q
      = App.respond_to_query textGen (.error ⟨[]⟩) (.error ⟨[]⟩) q :=
    hbase _ _ rfl
  refine ⟨?_, ?_, rfl, ?_, ?_, rfl⟩
  · rw [respond_price_info_split textGen (.ok (some b)) (.ok (some e)) q, hex]
    rfl
  · rw [respond_price_info_split textGen (.ok (some b)) (.ok (some e)) q]
    exact List.suffix_append _ _
  · intro o
    rw [hex, hbase (.error ex) o ?_]
    cases ho : App.get_crypto_data o <;> rfl
  · intro o
    rw [hex, hbase o (.error ex) ?_]
    cases ho : App.get_crypto_data o <;> rfl

end BitBot
